import Mathlib

/-!
Verification of the trading-simulation core of the `money` repository.

The Python sources are shallowly embedded as Lean definitions:
* `src/scripts/signals.py`   → `Money.generateSignalsDf`
* `src/scripts/backtest.py`  → `Money.getNextTradingDay`, `Money.executeWeeklyTrades`,
                               `Money.calculateTradePnl`, `Money.totalReturnPct`,
                               `Money.annualizedReturnPct`, `Money.backtestSchedule`
* `src/scripts/risk_manager.py` → `Money.RiskManager.*`
* `src/scripts/portfolio.py` → `Money.executeTrade`, `Money.Position.*`

Python floats are modelled as rationals (reals where a non-algebraic power
is taken), dates as integers (day 0 is a Monday, matching
`datetime.weekday()` where Monday = 0), and DataFrames as lists of records.
-/

namespace Money

/-! ### Signals (src/scripts/signals.py, src/scripts/config.py) -/

/-- One row of the price DataFrame (columns date, ticker, Open, High, Low,
Close, Volume), dates as integers. -/
structure Row where
  date : ℤ
  ticker : String
  openP : ℚ
  high : ℚ
  low : ℚ
  close : ℚ
  volume : ℚ
  deriving DecidableEq, Repr

/-- Signal labels emitted by `generate_signals_df`. -/
inductive Label where
  | buy
  | sell
  | hold
  deriving DecidableEq, Repr

/-- `config.SIGNAL_MAP.get(n, "HOLD")`: {-1: SELL, 0: HOLD, 1: BUY}, default HOLD. -/
def signalMap (n : ℤ) : Label :=
  if n = -1 then .sell else if n = 0 then .hold else if n = 1 then .buy else .hold

/-- First-occurrence-order deduplication, as `pandas.Series.unique`. -/
def uniqueFirst : List String → List String
  | [] => []
  | t :: ts => t :: uniqueFirst (ts.filter (fun x => x ≠ t))
termination_by l => l.length
decreasing_by
  simp only [List.length_cons]
  exact Nat.lt_succ_of_le (List.length_filter_le _ _)

/-- Insert a row into a list sorted by date (helper for `sortByDate`). -/
def insertByDate (r : Row) : List Row → List Row
  | [] => [r]
  | x :: xs => if r.date ≤ x.date then r :: x :: xs else x :: insertByDate r xs

/-- `df_ticker.sort_values("date")`. -/
def sortByDate : List Row → List Row
  | [] => []
  | x :: xs => insertByDate x (sortByDate xs)

/-- A strategy appends a numeric `signal` column (nullable) to a per-ticker
DataFrame; modelled as a function from the sorted rows to that column. -/
def Strategy : Type := List Row → List (Option ℤ)

/-- `generate_signals_df(strategy_fn, df)` from src/scripts/signals.py:
per ticker (in first-appearance order) sort by date, apply the strategy,
take the last non-null signal value (default 0), map through `SIGNAL_MAP`. -/
def generateSignalsDf (strat : Strategy) (df : List Row) : List (String × Label) :=
  (uniqueFirst (df.map Row.ticker)).map (fun tk =>
    let dfTicker := df.filter (fun r => r.ticker = tk)
    if dfTicker.isEmpty then (tk, .hold)
    else
      let withSignals := strat (sortByDate dfTicker)
      let validSignals := withSignals.filterMap id
      let signalNum := validSignals.getLast?.getD 0
      (tk, signalMap signalNum))

/-- `available_data = df_prices[df_prices['date'] <= signal_date_str]`
(src/scripts/backtest.py line 403): the slice the backtest feeds to
`generate_signals_df` for an analysis date. -/
def truncateAt (d : ℤ) (df : List Row) : List Row :=
  df.filter (fun r => r.date ≤ d)

/-! ### Weekly scheduling (src/scripts/backtest.py) -/

/-- `get_next_trading_day(date, target_weekday)` from src/scripts/backtest.py:
`days_ahead = target - date.weekday(); if days_ahead <= 0: days_ahead += 7`.
Dates are integers with day 0 a Monday, so `weekday = d % 7`. -/
def getNextTradingDay (d : ℤ) (targetWeekday : ℤ) : ℤ :=
  if targetWeekday - d % 7 ≤ 0 then d + (targetWeekday - d % 7) + 7
  else d + (targetWeekday - d % 7)

/-- The analysis/execution date pairs visited by the `while` loop of
`run_backtest` (src/scripts/backtest.py lines 388-457): while
`signal_date ≤ end`, pair it with the following Monday, stop as soon as
the execution date passes `end`, and advance the cursor with
`get_next_trading_day(signal_date + 1, 4)`.  `fuel` bounds the recursion. -/
def scheduleAux (endD : ℤ) : Nat → ℤ → List (ℤ × ℤ)
  | 0, _ => []
  | fuel + 1, signalDate =>
    if signalDate ≤ endD then
      if endD < getNextTradingDay signalDate 0 then []
      else (signalDate, getNextTradingDay signalDate 0) ::
        scheduleAux endD fuel (getNextTradingDay (signalDate + 1) 4)
    else []

/-- Date pairs of a whole run: the first signal date is
`get_next_trading_day(start, 4)` (4 = Friday). -/
def backtestSchedule (start endD : ℤ) : List (ℤ × ℤ) :=
  scheduleAux endD ((endD - start).toNat + 1) (getNextTradingDay start 4)

end Money

/-! ## C1: no-look-ahead of signal generation -/

namespace Money

theorem filter_future_append (h extra : List Row) (D : ℤ)
    (hx : ∀ r ∈ extra, D < r.date) :
    truncateAt D (h ++ extra) = truncateAt D h := by
  unfold truncateAt
  rw [List.filter_append]
  have hnil : extra.filter (fun r => decide (r.date ≤ D)) = [] := by
    apply List.filter_eq_nil_iff.mpr
    intro r hr
    simpa using not_le.mpr (hx r hr)
  simp [hnil]

theorem truncate_of_past (h : List Row) (D : ℤ) (hh : ∀ r ∈ h, r.date ≤ D) :
    truncateAt D h = h := by
  unfold truncateAt
  apply List.filter_eq_self.mpr
  intro r hr
  simpa using hh r hr

end Money

/-- C1: for every strategy, every history whose rows all have date ≤ D and
every batch of future rows (date > D), signal generation on the history
truncated at D is unchanged when the future rows are appended to the input:
`generate_signals_df` composed with the backtest's `date <= signal_date`
slice never lets rows after the analysis date influence the emitted labels. -/
theorem C1_no_lookahead (strat : Money.Strategy) (h extra : List Money.Row) (D : ℤ)
    (hh : ∀ r ∈ h, r.date ≤ D) (hx : ∀ r ∈ extra, D < r.date) :
    Money.generateSignalsDf strat (Money.truncateAt D (h ++ extra)) =
      Money.generateSignalsDf strat h := by
  rw [Money.filter_future_append h extra D hx, Money.truncate_of_past h D hh]

/-- Witness for C1 at a concrete history, future row and strategy. -/
theorem C1_no_lookahead_witness :
    Money.generateSignalsDf (fun rows => rows.map (fun _ => some 1))
        (Money.truncateAt 3 ([⟨0, "A", 1, 1, 1, 1, 1⟩] ++ [⟨5, "A", 2, 2, 2, 2, 2⟩])) =
      Money.generateSignalsDf (fun rows => rows.map (fun _ => some 1))
        [⟨0, "A", 1, 1, 1, 1, 1⟩] :=
  C1_no_lookahead (fun rows => rows.map (fun _ => some 1))
    [⟨0, "A", 1, 1, 1, 1, 1⟩] [⟨5, "A", 2, 2, 2, 2, 2⟩] 3
    (by decide) (by decide)

/-! ## C6: weekly scheduling -/

namespace Money

theorem emod7_facts (d : ℤ) : 7 * (d / 7) + d % 7 = d ∧ 0 ≤ d % 7 ∧ d % 7 < 7 :=
  ⟨Int.ediv_add_emod d 7, Int.emod_nonneg d (by norm_num),
    Int.emod_lt_of_pos d (by norm_num)⟩

theorem emod7_add_mul (s k : ℤ) : (s + 7 * k) % 7 = s % 7 :=
  Int.add_mul_emod_self_left s 7 k

theorem emod_getNextTradingDay (d t : ℤ) (ht0 : 0 ≤ t) (ht7 : t < 7) :
    (getNextTradingDay d t) % 7 = t := by
  obtain ⟨h1, h2, h3⟩ := emod7_facts d
  unfold getNextTradingDay
  split
  · have he : d + (t - d % 7) + 7 = t + 7 * (d / 7 + 1) := by omega
    rw [he, emod7_add_mul, Int.emod_eq_of_lt ht0 ht7]
  · have he : d + (t - d % 7) = t + 7 * (d / 7) := by omega
    rw [he, emod7_add_mul, Int.emod_eq_of_lt ht0 ht7]

theorem lt_getNextTradingDay (d t : ℤ) (ht0 : 0 ≤ t) : d < getNextTradingDay d t := by
  obtain ⟨h1, h2, h3⟩ := emod7_facts d
  unfold getNextTradingDay
  split <;> omega

theorem getNextTradingDay_le (d t : ℤ) (ht7 : t < 7) : getNextTradingDay d t ≤ d + 7 := by
  obtain ⟨h1, h2, h3⟩ := emod7_facts d
  unfold getNextTradingDay
  split <;> omega

theorem friday_to_monday (s : ℤ) (hs : s % 7 = 4) : getNextTradingDay s 0 = s + 3 := by
  unfold getNextTradingDay
  rw [hs]
  norm_num
  omega

theorem friday_next_cursor (s : ℤ) (hs : s % 7 = 4) :
    getNextTradingDay (s + 1) 4 = s + 7 := by
  have hs1 : (s + 1) % 7 = 5 := by
    obtain ⟨h1, h2, h3⟩ := emod7_facts s
    have he : s + 1 = 5 + 7 * (s / 7) := by omega
    rw [he, emod7_add_mul]
    norm_num
  unfold getNextTradingDay
  rw [hs1]
  norm_num

theorem mem_scheduleAux (endD : ℤ) :
    ∀ (fuel : Nat) (s : ℤ), s % 7 = 4 →
      ∀ p ∈ scheduleAux endD fuel s,
        p.1 % 7 = 4 ∧ s ≤ p.1 ∧ p.2 = p.1 + 3 ∧ p.2 ≤ endD := by
  intro fuel
  induction fuel with
  | zero =>
    intro s hs p hp
    simp [scheduleAux] at hp
  | succ n ih =>
    intro s hs p hp
    unfold scheduleAux at hp
    split at hp
    · rw [friday_to_monday s hs] at hp
      split at hp
      · simp at hp
      · rcases List.mem_cons.mp hp with h1 | h2
        · rw [h1]
          exact ⟨hs, le_refl s, rfl, by omega⟩
        · rw [friday_next_cursor s hs] at h2
          have hmod : (s + 7) % 7 = 4 := by
            rw [show (s + 7 : ℤ) = s + 7 * 1 by ring, emod7_add_mul, hs]
          obtain ⟨a, b, c, d⟩ := ih (s + 7) hmod p h2
          exact ⟨a, by omega, c, d⟩
    · simp at hp

end Money

/-- C6 counterexample: the claim says a cursor that already falls on a Friday
is itself the analysis date; in the code `get_next_trading_day` adds 7 when
`days_ahead <= 0`, so the Friday cursor (day 4, with day 0 a Monday) is mapped
to the following Friday (day 11), and the first pair of a run starting on
day 4 is (11, 14), not (4, 7). -/
theorem C6_counterexample :
    (4 : ℤ) % 7 = 4 ∧ Money.getNextTradingDay 4 4 = 11 ∧
      (Money.backtestSchedule 4 20).head? = some (11, 14) := by
  refine ⟨by decide, by decide, ?_⟩
  decide

/-- C6 amended: every analysis/execution pair visited by the `run_backtest`
loop has a Friday analysis date that lies strictly after the run's start
cursor (a Friday start is pushed to the next week's Friday), an execution
date equal to the following Monday (analysis + 3, strictly after), and
pairs are only emitted while the execution date does not exceed the run
end date. -/
theorem C6_amended (start endD : ℤ) (p : ℤ × ℤ)
    (hp : p ∈ Money.backtestSchedule start endD) :
    p.1 % 7 = 4 ∧ start < p.1 ∧ p.2 = p.1 + 3 ∧ p.2 ≤ endD := by
  have hmod : Money.getNextTradingDay start 4 % 7 = 4 :=
    Money.emod_getNextTradingDay start 4 (by omega) (by omega)
  obtain ⟨a, b, c, d⟩ :=
    Money.mem_scheduleAux endD ((endD - start).toNat + 1)
      (Money.getNextTradingDay start 4) hmod p hp
  have hlt : start < Money.getNextTradingDay start 4 :=
    Money.lt_getNextTradingDay start 4 (by omega)
  exact ⟨a, by omega, c, d⟩

/-- Witness for C6 amended at a run over days 0..20 and its first pair. -/
theorem C6_amended_witness :
    ((4, 7) ∈ Money.backtestSchedule 0 20) ∧
      ((4 : ℤ) % 7 = 4 ∧ (0 : ℤ) < 4 ∧ (7 : ℤ) = 4 + 3 ∧ (7 : ℤ) ≤ 20) :=
  ⟨by decide, C6_amended 0 20 (4, 7) (by decide)⟩

/-! ## Portfolio ledger (src/scripts/portfolio.py) -/

namespace Money

/-- The trade operations accepted by `Portfolio.execute_trade`. -/
inductive Operation where
  | buy
  | sell
  deriving DecidableEq, Repr

/-- `Position` from src/scripts/portfolio.py: the fields held in
`portfolio._positions`.  Optional floats are `Option ℚ` (None ↔ `none`). -/
structure Position where
  ticker : String
  shares : ℤ
  avg_cost : ℚ
  current_price : ℚ
  stop_loss : Option ℚ
  profit_target : Option ℚ
  breakeven : Option ℚ
  entry_atr : Option ℚ
  first_half_sold : Bool
  deriving DecidableEq, Repr

/-- Errors raised by `Portfolio.execute_trade`. -/
inductive TradeErr where
  | insufficientCash
  | insufficientShares
  deriving DecidableEq, Repr

/-- The in-memory portfolio state `execute_trade` mutates: the cash balance
of `_snapshot` and the `_positions` dict (ticker → Position, modelled as an
association list with unique keys by construction). -/
structure PortfolioState where
  cash : ℚ
  positions : List (String × Position)
  deriving DecidableEq, Repr

/-- `self._positions.get(ticker)`. -/
def lookupPos (ps : List (String × Position)) (tk : String) : Option Position :=
  (ps.find? (fun q => q.1 = tk)).map (fun q => q.2)

/-- In-place replacement of the entry for `tk` (dict item assignment on an
existing key). -/
def replacePos (ps : List (String × Position)) (tk : String) (pos : Position) :
    List (String × Position) :=
  ps.map (fun q => if q.1 = tk then (tk, pos) else q)

/-- `Portfolio._add_or_update_position` (src/scripts/portfolio.py lines
384-421): volume-weighted average cost on an existing position with
positive shares, otherwise a brand-new `Position`. -/
def addOrUpdatePosition (st : PortfolioState) (tk : String) (quantity : ℤ)
    (price : ℚ) (stopLoss profitTarget : Option ℚ) : PortfolioState :=
  match lookupPos st.positions tk with
  | some existing =>
    if 0 < existing.shares then
      let newShares := existing.shares + quantity
      let newAvgCost := ((existing.shares : ℚ) * existing.avg_cost +
        (quantity : ℚ) * price) / (newShares : ℚ)
      let updated : Position :=
        { existing with
          shares := newShares
          avg_cost := newAvgCost
          current_price := price
          stop_loss := match stopLoss with
            | some s => some s
            | none => existing.stop_loss
          profit_target := match profitTarget with
            | some t => some t
            | none => existing.profit_target }
      { st with positions := replacePos st.positions tk updated }
    else
      let fresh : Position :=
        ⟨tk, quantity, price, price, stopLoss, profitTarget, none, none, false⟩
      { st with positions := replacePos st.positions tk fresh }
  | none =>
    let fresh : Position :=
      ⟨tk, quantity, price, price, stopLoss, profitTarget, none, none, false⟩
    { st with positions := st.positions ++ [(tk, fresh)] }

end Money

namespace Money

/-- `Portfolio.execute_trade(ticker, operation, quantity, stop_loss,
profit_target, commission=...)` (src/scripts/portfolio.py lines 294-383).
`currentPrice` is the value `_get_current_price(ticker)` returns (a database
lookup in the source).  The `commission` keyword argument is forwarded to
`_save_trade` only; it is modelled as an (unused) parameter.  DB persistence
and the saved `Trade` row are side effects outside the ledger state. -/
def executeTrade (st : PortfolioState) (tk : String) (operation : Operation)
    (quantity : ℤ) (currentPrice : ℚ) (commission : ℚ)
    (stopLoss profitTarget : Option ℚ) : Except TradeErr PortfolioState :=
  let totalValue := currentPrice * quantity
  match operation with
  | .buy =>
    if st.cash < totalValue then .error .insufficientCash
    else
      let st1 : PortfolioState := { st with cash := st.cash - totalValue }
      .ok (addOrUpdatePosition st1 tk quantity currentPrice stopLoss profitTarget)
  | .sell =>
    match lookupPos st.positions tk with
    | none => .error .insufficientShares
    | some pos =>
      if pos.shares < quantity then .error .insufficientShares
      else
        let pos1 : Position :=
          { pos with shares := pos.shares - quantity, current_price := currentPrice }
        let pos2 : Position :=
          if pos1.shares = 0 then
            { pos1 with stop_loss := none, profit_target := none }
          else pos1
        .ok { cash := st.cash + totalValue, positions := replacePos st.positions tk pos2 }

theorem executeTrade_buy_def (st : PortfolioState) (tk : String) (q : ℤ) (p c : ℚ)
    (sl pt : Option ℚ) :
    executeTrade st tk .buy q p c sl pt =
      if st.cash < p * (q : ℚ) then .error .insufficientCash
      else .ok (addOrUpdatePosition { st with cash := st.cash - p * (q : ℚ) } tk q p sl pt) :=
  rfl

theorem lookupPos_replacePos (ps : List (String × Position)) (tk : String)
    (pos newPos : Position) (hl : lookupPos ps tk = some pos) :
    lookupPos (replacePos ps tk newPos) tk = some newPos := by
  induction ps with
  | nil => simp [lookupPos] at hl
  | cons hd tl ih =>
    rcases hd with ⟨k, v⟩
    by_cases hk : k = tk
    · subst hk
      simp [lookupPos, replacePos, List.find?]
    · simp only [lookupPos, replacePos, List.map_cons] at hl ⊢
      rw [if_neg (by simpa using hk)]
      rw [List.find?_cons_of_neg _ (by simpa using hk)] at hl
      rw [List.find?_cons_of_neg _ (by simpa using hk)]
      exact ih hl

theorem addOrUpdatePosition_cash (st : PortfolioState) (tk : String) (q : ℤ)
    (p : ℚ) (sl pt : Option ℚ) :
    (addOrUpdatePosition st tk q p sl pt).cash = st.cash := by
  unfold addOrUpdatePosition
  cases h : lookupPos st.positions tk with
  | none => rfl
  | some existing =>
    dsimp only
    split <;> rfl

theorem addOrUpdatePosition_lookup_existing (st : PortfolioState) (tk : String)
    (q : ℤ) (p : ℚ) (sl pt : Option ℚ) (pos : Position)
    (hpos : lookupPos st.positions tk = some pos) (hsh : 0 < pos.shares) :
    ∃ pos', lookupPos (addOrUpdatePosition st tk q p sl pt).positions tk = some pos' ∧
      pos'.shares = pos.shares + q ∧
      pos'.avg_cost = ((pos.shares : ℚ) * pos.avg_cost + (q : ℚ) * p) /
        (((pos.shares + q : ℤ)) : ℚ) := by
  unfold addOrUpdatePosition
  rw [hpos]
  dsimp only
  rw [if_pos hsh]
  refine ⟨_, lookupPos_replacePos _ _ _ _ hpos, rfl, ?_⟩
  push_cast
  rfl

end Money

/-- C4 counterexample: the claim says a BUY raises InsufficientCash iff
`quantity*price*(1+commission) > cash`.  With cash = 100, quantity = 1,
price = 100 and commission rate 0.1 the claimed total cost is 110 > 100,
yet `execute_trade` checks and debits only `quantity * price`, so the
trade succeeds and leaves cash 0. -/
theorem C4_counterexample :
    (1 * (100 : ℚ) * (1 + 1/10) > 100) ∧
      Money.executeTrade ⟨100, []⟩ "A" .buy 1 100 (1/10) none none =
        .ok ⟨0, [("A", ⟨"A", 1, 100, 100, none, none, none, none, false⟩)]⟩ := by
  constructor
  · norm_num
  · rw [Money.executeTrade_buy_def]
    rw [if_neg (by norm_num)]
    simp [Money.addOrUpdatePosition, Money.lookupPos]

/-- C4 amended: `execute_trade` on a BUY raises InsufficientCash iff
`quantity * price > cash` — the commission argument never enters the guard
or the cash debit (it is only recorded on the saved trade) — and on success
cash is debited by exactly `quantity * price` while an existing position
with positive shares gets the volume-weighted average cost
`(old_shares*old_cost + quantity*price)/(old_shares+quantity)`.  On failure
no state is produced, so the portfolio is unchanged. -/
theorem C4_amended (st : Money.PortfolioState) (tk : String) (q : ℤ) (p c : ℚ)
    (stopLoss profitTarget : Option ℚ) (hq : 0 < q) :
    (Money.executeTrade st tk .buy q p c stopLoss profitTarget =
        .error .insufficientCash ↔ st.cash < p * q) ∧
    (∀ c', Money.executeTrade st tk .buy q p c stopLoss profitTarget =
        Money.executeTrade st tk .buy q p c' stopLoss profitTarget) ∧
    (∀ st', Money.executeTrade st tk .buy q p c stopLoss profitTarget = .ok st' →
      st'.cash = st.cash - p * q ∧
      ∀ pos, Money.lookupPos st.positions tk = some pos → 0 < pos.shares →
        ∃ pos', Money.lookupPos st'.positions tk = some pos' ∧
          pos'.shares = pos.shares + q ∧
          ((pos.shares : ℚ) + (q : ℚ)) * pos'.avg_cost =
            (pos.shares : ℚ) * pos.avg_cost + (q : ℚ) * p) := by
  refine ⟨⟨?_, ?_⟩, fun c' => rfl, ?_⟩
  · intro herr
    by_contra hc
    rw [Money.executeTrade_buy_def, if_neg hc] at herr
    exact Except.noConfusion herr
  · intro hc
    rw [Money.executeTrade_buy_def, if_pos hc]
  · intro st' hok
    rw [Money.executeTrade_buy_def] at hok
    by_cases hc : st.cash < p * (q : ℚ)
    · rw [if_pos hc] at hok
      exact Except.noConfusion hok
    · rw [if_neg hc] at hok
      have hok' : Money.addOrUpdatePosition { st with cash := st.cash - p * (q : ℚ) }
          tk q p stopLoss profitTarget = st' := by
        exact Except.ok.inj hok
      subst hok'
      constructor
      · rw [Money.addOrUpdatePosition_cash]
      · intro pos hpos hsh
        obtain ⟨pos', hl', hsh', hcost'⟩ :=
          Money.addOrUpdatePosition_lookup_existing
            { st with cash := st.cash - p * (q : ℚ) } tk q p stopLoss profitTarget pos
            hpos hsh
        refine ⟨pos', hl', hsh', ?_⟩
        have hne : ((pos.shares : ℚ) + (q : ℚ)) ≠ 0 := by
          have h1 : (0 : ℚ) < (pos.shares : ℚ) := by exact_mod_cast hsh
          have h2 : (0 : ℚ) < (q : ℚ) := by exact_mod_cast hq
          positivity
        rw [hcost']
        push_cast
        rw [mul_comm]
        rw [div_mul_cancel₀ _ hne]

/-- Witness for C4 amended: with cash 50 a BUY of 1 share at 100 is
rejected for insufficient cash. -/
theorem C4_amended_witness :
    Money.executeTrade ⟨50, []⟩ "A" .buy 1 100 0 none none =
      .error .insufficientCash :=
  (C4_amended ⟨50, []⟩ "A" 1 100 0 none none (by norm_num)).1.mpr (by norm_num)

/-! ## Backtest trade-log PnL (src/scripts/backtest.py, calculate_trade_pnl) -/

namespace Money

/-- One trade dict produced by `execute_weekly_trades` (src/scripts/backtest.py
lines 235-245 / 268-278): keys date, ticker, action, shares, price,
gross_amount, commission, net_amount, pnl. -/
structure BTrade where
  date : ℤ
  ticker : String
  action : Operation
  shares : ℤ
  price : ℚ
  grossAmount : ℚ
  commission : ℚ
  netAmount : ℚ
  pnl : ℚ
  deriving DecidableEq, Repr

/-- `buy_trades[ticker] = trade` (dict assignment).  Only lookup and
deletion are ever performed on this dict, so it is modelled as an
association list whose newest binding shadows older ones. -/
def upsertBuy (m : List (String × BTrade)) (tk : String) (t : BTrade) :
    List (String × BTrade) :=
  (tk, t) :: m.filter (fun q => q.1 ≠ tk)

/-- `ticker in buy_trades` / `buy_trades[ticker]`. -/
def lookupBuy (m : List (String × BTrade)) (tk : String) : Option BTrade :=
  (m.find? (fun q => q.1 = tk)).map (fun q => q.2)

/-- `del buy_trades[ticker]`. -/
def eraseBuy (m : List (String × BTrade)) (tk : String) : List (String × BTrade) :=
  m.filter (fun q => q.1 ≠ tk)

/-- The loop of `calculate_trade_pnl` (src/scripts/backtest.py lines
283-313): a BUY becomes the ticker's pending buy; a SELL with a pending buy
gets `pnl = sell net_amount - buy net_amount` and consumes it; every other
trade is copied unchanged (an unmatched SELL keeps its input pnl). -/
def calcPnlAux (buyTrades : List (String × BTrade)) : List BTrade → List BTrade
  | [] => []
  | t :: ts =>
    match t.action with
    | .buy => t :: calcPnlAux (upsertBuy buyTrades t.ticker t) ts
    | .sell =>
      match lookupBuy buyTrades t.ticker with
      | some b => { t with pnl := t.netAmount - b.netAmount } ::
          calcPnlAux (eraseBuy buyTrades t.ticker) ts
      | none => t :: calcPnlAux buyTrades ts

/-- `calculate_trade_pnl(trades_history)`. -/
def calculateTradePnl (ts : List BTrade) : List BTrade := calcPnlAux [] ts

theorem lookupBuy_upsertBuy (m : List (String × BTrade)) (tk : String) (t : BTrade) :
    lookupBuy (upsertBuy m tk t) tk = some t := by
  simp [lookupBuy, upsertBuy, List.find?]

theorem calcPnlAux_cons_buy (m : List (String × BTrade)) (t : BTrade)
    (ts : List BTrade) (ht : t.action = .buy) :
    calcPnlAux m (t :: ts) = t :: calcPnlAux (upsertBuy m t.ticker t) ts := by
  simp only [calcPnlAux, ht]

theorem calcPnlAux_cons_sell_found (m : List (String × BTrade)) (t : BTrade)
    (ts : List BTrade) (b : BTrade) (ht : t.action = .sell)
    (hfound : lookupBuy m t.ticker = some b) :
    calcPnlAux m (t :: ts) = { t with pnl := t.netAmount - b.netAmount } ::
      calcPnlAux (eraseBuy m t.ticker) ts := by
  simp only [calcPnlAux, ht, hfound]

theorem calcPnlAux_buys_append_sell (tk : String) (s : BTrade)
    (hs : s.action = .sell) (hst : s.ticker = tk) :
    ∀ (bs : List BTrade) (m : List (String × BTrade)) (hbs : bs ≠ []),
      (∀ b ∈ bs, b.action = .buy ∧ b.ticker = tk) →
      calcPnlAux m (bs ++ [s]) =
        bs ++ [{ s with pnl := s.netAmount - (bs.getLast hbs).netAmount }] := by
  intro bs
  induction bs with
  | nil => intro m hbs hb; exact absurd rfl hbs
  | cons b bs ih =>
    intro m hbs hb
    obtain ⟨hba, hbt⟩ := hb b (List.mem_cons_self b bs)
    cases bs with
    | nil =>
      rw [List.cons_append, List.nil_append, calcPnlAux_cons_buy m b _ hba]
      have hfound : lookupBuy (upsertBuy m b.ticker b) s.ticker = some b := by
        rw [hst, hbt]
        exact lookupBuy_upsertBuy _ tk b
      rw [calcPnlAux_cons_sell_found _ s _ b hs hfound]
      simp [calcPnlAux]
    | cons b' bs' =>
      have hbs' : b' :: bs' ≠ [] := by simp
      have hstep := ih (upsertBuy m b.ticker b) hbs'
        (fun x hx => hb x (List.mem_cons_of_mem b hx))
      rw [List.cons_append, calcPnlAux_cons_buy m b _ hba, hstep]
      simp [List.getLast_cons]

end Money

/-- C5 counterexample: trades BUY 10@10 (net 100), BUY 10@20 (net 200),
SELL 20@15 (net 300) of one ticker.  The average cost at sale time is
(10·10+10·20)/20 = 15, so the claimed realized PnL is 300 − 20·15 = 0,
but `calculate_trade_pnl` pairs the SELL with the last BUY only and
attaches 300 − 200 = 100. -/
theorem C5_counterexample :
    Money.calculateTradePnl
        [⟨0, "A", .buy, 10, 10, 100, 0, 100, 0⟩,
         ⟨1, "A", .buy, 10, 20, 200, 0, 200, 0⟩,
         ⟨2, "A", .sell, 20, 15, 300, 0, 300, 0⟩] =
      [⟨0, "A", .buy, 10, 10, 100, 0, 100, 0⟩,
       ⟨1, "A", .buy, 10, 20, 200, 0, 200, 0⟩,
       ⟨2, "A", .sell, 20, 15, 300, 0, 300, 100⟩] ∧
    (100 : ℚ) ≠ 300 - 20 * ((10 * 10 + 10 * 20) / (10 + 10)) := by
  constructor
  · simp [Money.calculateTradePnl, Money.calcPnlAux, Money.upsertBuy,
      Money.lookupBuy, Money.eraseBuy]
    norm_num
  · norm_num

/-- C5 amended: the realized PnL the backtest attaches to a SELL is the
SELL's net amount minus the net amount of the most recently recorded BUY of
that ticker (average cost plays no role): for every non-empty run of BUYs of
one ticker followed by a SELL of that ticker, `calculate_trade_pnl` leaves
the BUY rows unchanged and sets the SELL's pnl to
`sell.net_amount - last_buy.net_amount`. -/
theorem C5_amended (tk : String) (bs : List Money.BTrade) (s : Money.BTrade)
    (hbs : bs ≠ []) (hb : ∀ b ∈ bs, b.action = .buy ∧ b.ticker = tk)
    (hs : s.action = .sell) (hst : s.ticker = tk) :
    Money.calculateTradePnl (bs ++ [s]) =
      bs ++ [{ s with pnl := s.netAmount - (bs.getLast hbs).netAmount }] :=
  Money.calcPnlAux_buys_append_sell tk s hs hst bs [] hbs hb

/-- Witness for C5 amended at two BUYs and one SELL. -/
theorem C5_amended_witness :
    Money.calculateTradePnl
        ([⟨0, "A", .buy, 10, 10, 100, 0, 100, 0⟩,
          ⟨1, "A", .buy, 10, 20, 200, 0, 200, 0⟩] ++
          [⟨2, "A", .sell, 20, 15, 300, 0, 300, 0⟩]) =
      [⟨0, "A", .buy, 10, 10, 100, 0, 100, 0⟩,
       ⟨1, "A", .buy, 10, 20, 200, 0, 200, 0⟩,
       ⟨2, "A", .sell, 20, 15, 300, 0, 300, 300 - 200⟩] := by
  have h := C5_amended "A"
    [⟨0, "A", .buy, 10, 10, 100, 0, 100, 0⟩, ⟨1, "A", .buy, 10, 20, 200, 0, 200, 0⟩]
    ⟨2, "A", .sell, 20, 15, 300, 0, 300, 0⟩ (by simp) (by decide) rfl rfl
  simpa using h

/-- C10 counterexample: on BUY(net 100), BUY(net 200), SELL(net 300),
SELL(net 400) of one ticker the claim pairs the second SELL with the first
BUY (pnl 400 − 100 = 300), but the code discarded that BUY when the second
BUY overwrote the dict entry, so the second SELL keeps pnl 0. -/
theorem C10_counterexample :
    Money.calculateTradePnl
        [⟨0, "A", .buy, 10, 10, 100, 0, 100, 0⟩,
         ⟨1, "A", .buy, 10, 20, 200, 0, 200, 0⟩,
         ⟨2, "A", .sell, 10, 30, 300, 0, 300, 0⟩,
         ⟨3, "A", .sell, 10, 40, 400, 0, 400, 0⟩] =
      [⟨0, "A", .buy, 10, 10, 100, 0, 100, 0⟩,
       ⟨1, "A", .buy, 10, 20, 200, 0, 200, 0⟩,
       ⟨2, "A", .sell, 10, 30, 300, 0, 300, 100⟩,
       ⟨3, "A", .sell, 10, 40, 400, 0, 400, 0⟩] ∧
    (0 : ℚ) ≠ 400 - 100 := by
  constructor
  · simp [Money.calculateTradePnl, Money.calcPnlAux, Money.upsertBuy,
      Money.lookupBuy, Money.eraseBuy]
    norm_num
  · norm_num

/-- C10 amended: `calculate_trade_pnl` keeps a single pending BUY per ticker
which each new BUY overwrites (the shadowed BUY is discarded, not kept
matchable); a SELL consumes the pending BUY (pnl = sell net − buy net) and a
SELL with no pending BUY keeps pnl 0.  In particular on BUY,BUY,SELL,SELL of
one ticker the first SELL pairs with the second BUY and the second SELL pairs
with nothing. -/
theorem C10_amended (tk : String) (b1 b2 s1 s2 : Money.BTrade)
    (hb1 : b1.action = .buy) (hb1t : b1.ticker = tk)
    (hb2 : b2.action = .buy) (hb2t : b2.ticker = tk)
    (hs1 : s1.action = .sell) (hs1t : s1.ticker = tk)
    (hs2 : s2.action = .sell) (hs2t : s2.ticker = tk) :
    Money.calculateTradePnl [b1, b2, s1, s2] =
      [b1, b2, { s1 with pnl := s1.netAmount - b2.netAmount }, s2] := by
  simp [Money.calculateTradePnl, Money.calcPnlAux, hb1, hb2, hs1, hs2,
    hb1t, hb2t, hs1t, hs2t, Money.upsertBuy, Money.lookupBuy, Money.eraseBuy]

/-- Witness for C10 amended at four concrete trades. -/
theorem C10_amended_witness :
    Money.calculateTradePnl
        [⟨0, "B", .buy, 5, 2, 10, 0, 10, 0⟩,
         ⟨1, "B", .buy, 5, 4, 20, 0, 20, 0⟩,
         ⟨2, "B", .sell, 5, 6, 30, 0, 30, 0⟩,
         ⟨3, "B", .sell, 5, 8, 40, 0, 40, 0⟩] =
      [⟨0, "B", .buy, 5, 2, 10, 0, 10, 0⟩,
       ⟨1, "B", .buy, 5, 4, 20, 0, 20, 0⟩,
       ⟨2, "B", .sell, 5, 6, 30, 0, 30, 30 - 20⟩,
       ⟨3, "B", .sell, 5, 8, 40, 0, 40, 0⟩] := by
  have h := C10_amended "B"
    ⟨0, "B", .buy, 5, 2, 10, 0, 10, 0⟩ ⟨1, "B", .buy, 5, 4, 20, 0, 20, 0⟩
    ⟨2, "B", .sell, 5, 6, 30, 0, 30, 0⟩ ⟨3, "B", .sell, 5, 8, 40, 0, 40, 0⟩
    rfl rfl rfl rfl rfl rfl rfl rfl
  simpa using h

/-! ## Weekly trade execution (src/scripts/backtest.py, execute_weekly_trades) -/

namespace Money

/-- Python `int(x)` on a nonnegative float: truncation toward zero. -/
def pyInt (q : ℚ) : ℤ := Int.tdiv q.num q.den

/-- `dict(zip(execution_prices['ticker'], execution_prices['Open']))`:
a later row for the same ticker overwrites an earlier one. -/
def priceDict (rows : List Row) (tk : String) : Option ℚ :=
  (rows.reverse.find? (fun r => r.ticker = tk)).map Row.openP

/-- The loop state of `execute_weekly_trades`: the `trades` accumulator,
the `new_positions` dict (ticker → share count) and `remaining_cash`. -/
structure WeeklyState where
  trades : List BTrade
  positions : List (String × ℤ)
  cash : ℚ

/-- `new_positions[ticker]` lookup. -/
def lookupShares (ps : List (String × ℤ)) (tk : String) : Option ℤ :=
  (ps.find? (fun q => q.1 = tk)).map (fun q => q.2)

/-- `ticker in new_positions`. -/
def hasTicker (ps : List (String × ℤ)) (tk : String) : Bool :=
  ps.any (fun q => q.1 = tk)

/-- `del new_positions[ticker]`. -/
def erasePosition (ps : List (String × ℤ)) (tk : String) : List (String × ℤ) :=
  ps.filter (fun q => q.1 ≠ tk)

/-- SELL-phase loop body of `execute_weekly_trades` (src/scripts/backtest.py
lines 217-245): skip tickers without a price or a positive position,
otherwise sell everything, credit the net proceeds and record the trade. -/
def sellStep (price? : String → Option ℚ) (executionDate : ℤ) (commissionRate : ℚ)
    (st : WeeklyState) (row : String × Label) : WeeklyState :=
  match price? row.1, lookupShares st.positions row.1 with
  | some price, some shares =>
    if shares ≤ 0 then st
    else
      let grossProceeds := (shares : ℚ) * price
      let netProceeds := grossProceeds * (1 - commissionRate)
      { trades := st.trades ++
          [⟨executionDate, row.1, .sell, shares, price, grossProceeds,
            grossProceeds * commissionRate, netProceeds, 0⟩],
        positions := erasePosition st.positions row.1,
        cash := st.cash + netProceeds }
  | _, _ => st

/-- BUY-phase loop body of `execute_weekly_trades` (src/scripts/backtest.py
lines 247-278): equal-weight target, skip if already held or no price,
accept only when the total cost fits the remaining cash. -/
def buyStep (price? : String → Option ℚ) (executionDate : ℤ) (commissionRate : ℚ)
    (positionValue : ℚ) (st : WeeklyState) (row : String × Label) : WeeklyState :=
  match price? row.1 with
  | none => st
  | some price =>
    if hasTicker st.positions row.1 then st
    else
      let targetShares := pyInt (positionValue / price)
      let grossCost := (targetShares : ℚ) * price
      let totalCost := grossCost * (1 + commissionRate)
      if totalCost ≤ st.cash ∧ 0 < targetShares then
        { trades := st.trades ++
            [⟨executionDate, row.1, .buy, targetShares, price, grossCost,
              grossCost * commissionRate, totalCost, 0⟩],
          positions := st.positions ++ [(row.1, targetShares)],
          cash := st.cash - totalCost }
      else st

/-- `execute_weekly_trades(signals_df, prices_df, execution_date,
current_positions, cash, total_portfolio_value, commission_rate)`
(src/scripts/backtest.py lines 180-280): first the SELL signals are applied
(freeing cash), then the BUY signals with equal-weight sizing
`total_portfolio_value / len(buy_signals)`. -/
def executeWeeklyTrades (signalsDf : List (String × Label)) (pricesDf : List Row)
    (executionDate : ℤ) (currentPositions : List (String × ℤ)) (cash : ℚ)
    (totalPortfolioValue : ℚ) (commissionRate : ℚ) :
    List BTrade × List (String × ℤ) × ℚ :=
  let executionPrices := pricesDf.filter (fun r => r.date = executionDate)
  if executionPrices.isEmpty then ([], currentPositions, cash)
  else
    let price? := priceDict executionPrices
    let sellSignals := signalsDf.filter (fun s => s.2 = Label.sell)
    let afterSells := sellSignals.foldl (sellStep price? executionDate commissionRate)
      ⟨[], currentPositions, cash⟩
    let buySignals := signalsDf.filter (fun s => s.2 = Label.buy)
    let final :=
      if buySignals.isEmpty then afterSells
      else
        let positionValue := totalPortfolioValue / (buySignals.length : ℚ)
        buySignals.foldl (buyStep price? executionDate commissionRate positionValue) afterSells
    (final.trades, final.positions, final.cash)

theorem sellStep_cases (price? : String → Option ℚ) (d : ℤ) (c : ℚ)
    (st : WeeklyState) (row : String × Label) :
    sellStep price? d c st row = st ∨
    ∃ tr : BTrade, tr.action = .sell ∧
      (sellStep price? d c st row).trades = st.trades ++ [tr] ∧
      (sellStep price? d c st row).cash = st.cash + tr.netAmount := by
  unfold sellStep
  cases price? row.1 with
  | none => left; rfl
  | some price =>
    cases lookupShares st.positions row.1 with
    | none => left; rfl
    | some shares =>
      dsimp only
      split
      · left; rfl
      · right; exact ⟨_, rfl, rfl, rfl⟩

theorem buyStep_cases (price? : String → Option ℚ) (d : ℤ) (c pv : ℚ)
    (st : WeeklyState) (row : String × Label) :
    buyStep price? d c pv st row = st ∨
    ∃ tr : BTrade, tr.action = .buy ∧
      (buyStep price? d c pv st row).trades = st.trades ++ [tr] ∧
      (buyStep price? d c pv st row).cash = st.cash - tr.netAmount := by
  unfold buyStep
  cases price? row.1 with
  | none => left; rfl
  | some price =>
    dsimp only
    split
    · left; rfl
    · split
      · right; exact ⟨_, rfl, rfl, rfl⟩
      · left; rfl

theorem sellFold_spec (price? : String → Option ℚ) (d : ℤ) (c : ℚ) :
    ∀ (sigs : List (String × Label)) (st : WeeklyState),
      ∃ Δ : List BTrade,
        (sigs.foldl (sellStep price? d c) st).trades = st.trades ++ Δ ∧
        (∀ t ∈ Δ, t.action = Operation.sell) ∧
        (sigs.foldl (sellStep price? d c) st).cash =
          st.cash + (Δ.map BTrade.netAmount).sum := by
  intro sigs
  induction sigs with
  | nil => intro st; exact ⟨[], by simp, by simp, by simp⟩
  | cons s rest ih =>
    intro st
    obtain ⟨Δ, h1, h2, h3⟩ := ih (sellStep price? d c st s)
    rcases sellStep_cases price? d c st s with heq | ⟨tr, htr, ht, hc⟩
    · refine ⟨Δ, ?_, h2, ?_⟩
      · simpa [heq] using h1
      · simpa [heq] using h3
    · refine ⟨tr :: Δ, ?_, ?_, ?_⟩
      · simp only [List.foldl_cons, h1, ht]
        simp
      · intro t htm
        rcases List.mem_cons.mp htm with h | h
        · rw [h]; exact htr
        · exact h2 t h
      · simp only [List.foldl_cons, h3, hc]
        simp [add_assoc]

theorem buyFold_spec (price? : String → Option ℚ) (d : ℤ) (c pv : ℚ) :
    ∀ (sigs : List (String × Label)) (st : WeeklyState),
      ∃ Δ : List BTrade,
        (sigs.foldl (buyStep price? d c pv) st).trades = st.trades ++ Δ ∧
        (∀ t ∈ Δ, t.action = Operation.buy) ∧
        (sigs.foldl (buyStep price? d c pv) st).cash =
          st.cash - (Δ.map BTrade.netAmount).sum := by
  intro sigs
  induction sigs with
  | nil => intro st; exact ⟨[], by simp, by simp, by simp⟩
  | cons s rest ih =>
    intro st
    obtain ⟨Δ, h1, h2, h3⟩ := ih (buyStep price? d c pv st s)
    rcases buyStep_cases price? d c pv st s with heq | ⟨tr, htr, ht, hc⟩
    · refine ⟨Δ, ?_, h2, ?_⟩
      · simpa [heq] using h1
      · simpa [heq] using h3
    · refine ⟨tr :: Δ, ?_, ?_, ?_⟩
      · simp only [List.foldl_cons, h1, ht]
        simp
      · intro t htm
        rcases List.mem_cons.mp htm with h | h
        · rw [h]; exact htr
        · exact h2 t h
      · simp only [List.foldl_cons, h3, hc, List.map_cons, List.sum_cons]
        ring

end Money

/-- C7: in every execution cycle `execute_weekly_trades` applies all SELL
orders before any BUY order: its trade list splits as a block of SELL
records followed by a block of BUY records, and the final cash equals the
starting cash plus all SELL net proceeds minus all BUY net costs — the cash
freed by the sells is available to fund the buys of the same cycle. -/
theorem C7_sell_before_buy (signalsDf : List (String × Money.Label))
    (pricesDf : List Money.Row) (executionDate : ℤ)
    (currentPositions : List (String × ℤ)) (cash : ℚ)
    (totalPortfolioValue : ℚ) (commissionRate : ℚ) :
    ∃ sells buys : List Money.BTrade,
      (Money.executeWeeklyTrades signalsDf pricesDf executionDate currentPositions cash
          totalPortfolioValue commissionRate).1 = sells ++ buys ∧
      (∀ t ∈ sells, t.action = Money.Operation.sell) ∧
      (∀ t ∈ buys, t.action = Money.Operation.buy) ∧
      (Money.executeWeeklyTrades signalsDf pricesDf executionDate currentPositions cash
          totalPortfolioValue commissionRate).2.2 =
        cash + (sells.map Money.BTrade.netAmount).sum -
          (buys.map Money.BTrade.netAmount).sum := by
  unfold Money.executeWeeklyTrades
  dsimp only
  split
  · exact ⟨[], [], by simp, by simp, by simp, by simp⟩
  · obtain ⟨Δs, hs1, hs2, hs3⟩ :=
      Money.sellFold_spec (Money.priceDict (pricesDf.filter (fun r => r.date = executionDate)))
        executionDate commissionRate (signalsDf.filter (fun s => s.2 = Money.Label.sell))
        ⟨[], currentPositions, cash⟩
    split
    · exact ⟨Δs, [], by simpa using hs1, hs2, by simp, by simpa using hs3⟩
    · obtain ⟨Δb, hb1, hb2, hb3⟩ :=
        Money.buyFold_spec
          (Money.priceDict (pricesDf.filter (fun r => r.date = executionDate)))
          executionDate commissionRate
          (totalPortfolioValue /
            ((signalsDf.filter (fun s => s.2 = Money.Label.buy)).length : ℚ))
          (signalsDf.filter (fun s => s.2 = Money.Label.buy))
          ((signalsDf.filter (fun s => s.2 = Money.Label.sell)).foldl
            (Money.sellStep
              (Money.priceDict (pricesDf.filter (fun r => r.date = executionDate)))
              executionDate commissionRate) ⟨[], currentPositions, cash⟩)
      refine ⟨Δs, Δb, ?_, hs2, hb2, ?_⟩
      · rw [hb1, hs1]
        simp
      · rw [hb3, hs3]

/-! ## Risk manager (src/scripts/risk_manager.py, src/scripts/config.py) -/

namespace Money

/-- `config.DEFAULT_RISK_PCT_PER_TRADE = 0.02` ("% of portfolio risked per
single trade"). -/
def defaultRiskPctPerTrade : ℚ := 1/50

/-- `config.DEFAULT_MAX_POSITIONS = 5`. -/
def defaultMaxPositions : ℤ := 5

/-- `config.DEFAULT_ATR_MULTIPLIER = 2.0`. -/
def defaultAtrMultiplier : ℚ := 2

/-- `config.DEFAULT_CASH_BUFFER = 0.10`. -/
def defaultCashBuffer : ℚ := 1/10

/-- `config.DEFAULT_PROFIT_RATIO = 2.0`. -/
def defaultProfitRatio : ℚ := 2

/-- `config.MAX_SINGLE_POSITION_PCT = 20.0`. -/
def maxSinglePositionPct : ℚ := 20

/-- Python `round` to the nearest integer, ties to even (used by
`round(x, 4)`; modelled exactly on the rational value). -/
def pyRoundHalfEven (q : ℚ) : ℤ :=
  if q - ⌊q⌋ < 1/2 then ⌊q⌋
  else if 1/2 < q - ⌊q⌋ then ⌊q⌋ + 1
  else if ⌊q⌋ % 2 = 0 then ⌊q⌋ else ⌊q⌋ + 1

/-- Python `round(x, 4)`. -/
def round4 (q : ℚ) : ℚ := (pyRoundHalfEven (q * 10000) : ℚ) / 10000

/-- The dict returned by `RiskManager._calculate_2for1_targets`. -/
structure Targets where
  stop_loss : ℚ
  first_target : ℚ
  breakeven : ℚ
  entry_atr : ℚ
  deriving DecidableEq, Repr

/-- `RiskManager._calculate_2for1_targets(entry_price, atr)`
(src/scripts/risk_manager.py lines 429-439). -/
def calculate2for1Targets (entryPrice atr : ℚ) : Targets :=
  let riskDistance := atr * defaultAtrMultiplier
  let profitDistance := riskDistance * defaultProfitRatio
  ⟨round4 (entryPrice - riskDistance), round4 (entryPrice + profitDistance),
    round4 entryPrice, round4 atr⟩

/-- An enriched signal row (`ticker, signal, price, atr`) consumed by
`RiskManager.validate_signals`. -/
structure RMSignal where
  ticker : String
  signal : Label
  price : ℚ
  atr : ℚ
  deriving DecidableEq, Repr

/-- The state a `RiskManager` reads: the loaded portfolio's cash balance,
stored total value and positions dict, and the manager's risk parameters
(`max_risk_pct` defaults to `DEFAULT_RISK_PCT_PER_TRADE`, `max_positions`
to `DEFAULT_MAX_POSITIONS`). -/
structure RMState where
  cash : ℚ
  totalValue : ℚ
  positions : List (String × Position)
  maxRiskPct : ℚ
  maxPositions : ℤ
  deriving DecidableEq, Repr

/-- `Portfolio.get_positions_count()`: positions with positive shares. -/
def positionsCount (rm : RMState) : ℤ :=
  ((rm.positions.filter (fun q => 0 < q.2.shares)).length : ℤ)

/-- `Portfolio.get_available_cash()` (src/scripts/portfolio.py lines
590-602) with the default buffer `DEFAULT_CASH_BUFFER * 100` percent. -/
def getAvailableCash (rm : RMState) : ℚ :=
  max 0 (rm.cash - rm.cash * ((defaultCashBuffer * 100) / 100))

/-- Result of `RiskManager._calculate_position_size`. -/
inductive Sizing where
  | invalid (reason : String)
  | valid (shares : ℤ) (totalCost : ℚ) (targets : Targets) (riskAmount : ℚ)
  deriving DecidableEq, Repr

/-- `RiskManager._calculate_position_size(entry_price, atr)`
(src/scripts/risk_manager.py lines 391-426):
`risk_amount = total_value * (max_risk_pct / 100.0)`,
`risk_distance = atr * DEFAULT_ATR_MULTIPLIER`, reject non-positive risk
distance, `shares = int(risk_amount / risk_distance)`, reject
`shares <= 0`. -/
def calculatePositionSize (rm : RMState) (entryPrice atr : ℚ) : Sizing :=
  if rm.totalValue ≤ 0 then .invalid "Portfolio value zero"
  else
    let riskAmount := rm.totalValue * (rm.maxRiskPct / 100)
    let riskDistance := atr * defaultAtrMultiplier
    if riskDistance ≤ 0 then .invalid "ATR troppo basso"
    else
      let shares := pyInt (riskAmount / riskDistance)
      if shares ≤ 0 then .invalid "Position size troppo piccola"
      else .valid shares ((shares : ℚ) * entryPrice)
        (calculate2for1Targets entryPrice atr) riskAmount

/-- A validated order as emitted by `RiskManager.validate_signals`
(SELL orders from `_validate_sell_signal`, approved BUY orders from
`_validate_buy_signal`; the per-order audit fields that are not read
anywhere are omitted). -/
structure Order where
  action : Operation
  ticker : String
  shares : ℤ
  price : ℚ
  reason : String
  targets : Option Targets
  deriving DecidableEq, Repr

/-- `RiskManager._validate_sell_signal(signal)` (src/scripts/risk_manager.py
lines 256-283): sell the whole existing position, reason STRATEGY_SIGNAL;
the position's stop_loss/first_target/breakeven are never consulted. -/
def validateSellSignal (rm : RMState) (s : RMSignal) : Option Order :=
  match lookupPos rm.positions s.ticker with
  | none => none
  | some pos =>
    if pos.shares ≤ 0 then none
    else some ⟨.sell, s.ticker, pos.shares, s.price, "STRATEGY_SIGNAL", none⟩

/-- `RiskManager._validate_buy_signal(signal)` (src/scripts/risk_manager.py
lines 328-388): position sizing, cash check against
`get_available_cash()`, concentration check against
`MAX_SINGLE_POSITION_PCT`; `none` stands for a dict with approved=False. -/
def validateBuySignal (rm : RMState) (s : RMSignal) : Option Order :=
  match calculatePositionSize rm s.price s.atr with
  | .invalid _ => none
  | .valid shares totalCost targets _ =>
    if getAvailableCash rm < totalCost then none
    else
      let positionWeight :=
        if 0 < rm.totalValue then totalCost / rm.totalValue * 100 else 0
      if maxSinglePositionPct < positionWeight then none
      else some ⟨.buy, s.ticker, shares, s.price, "STRATEGY_SIGNAL", some targets⟩

/-- Lexicographic `sort_values(['atr', 'ticker'])` key. -/
def atrTickerLe (a b : RMSignal) : Bool :=
  a.atr < b.atr ∨ (a.atr = b.atr ∧ a.ticker ≤ b.ticker)

/-- `RiskManager._validate_buy_signals_batch(buy_signals)`
(src/scripts/risk_manager.py lines 286-325): bail out with a full slot
count, drop already-held tickers, rank ascending by (atr, ticker), keep
`available_slots` candidates and validate each. -/
def validateBuySignalsBatch (rm : RMState) (buys : List RMSignal) : List Order :=
  let availableSlots := rm.maxPositions - positionsCount rm
  if availableSlots ≤ 0 then []
  else
    let newSignals := buys.filter (fun s =>
      ¬ rm.positions.any (fun q => q.1 = s.ticker ∧ 0 < q.2.shares))
    if newSignals.isEmpty then []
    else
      let ranked := (newSignals.mergeSort atrTickerLe).take availableSlots.toNat
      ranked.filterMap (validateBuySignal rm)

/-- `RiskManager.validate_signals(signals_df)` (src/scripts/risk_manager.py
lines 217-253): SELL signals first, then BUY signals; HOLD signals are
never considered. -/
def validateSignals (rm : RMState) (signalsDf : List RMSignal) : List Order :=
  if signalsDf.isEmpty then []
  else
    let sellOrders :=
      (signalsDf.filter (fun s => s.signal = Label.sell)).filterMap (validateSellSignal rm)
    let buySignals := signalsDf.filter (fun s => s.signal = Label.buy)
    let buyOrders := if buySignals.isEmpty then [] else validateBuySignalsBatch rm buySignals
    sellOrders ++ buyOrders

/-! ### Position exit predicates (src/scripts/portfolio.py lines 804-844) -/

/-- `Position.is_stop_loss_hit(current_price)`: `if not self.stop_loss:
return False; return current_price <= self.stop_loss` (`not` is Python
falsiness: None or 0.0). -/
def isStopLossHit (pos : Position) (currentPrice : ℚ) : Bool :=
  match pos.stop_loss with
  | none => false
  | some s => if s = 0 then false else decide (currentPrice ≤ s)

/-- `Position.is_profit_target_hit(current_price)`: false when no target or
the first half was already sold, else `current_price >= profit_target`. -/
def isProfitTargetHit (pos : Position) (currentPrice : ℚ) : Bool :=
  match pos.profit_target with
  | none => false
  | some t =>
    if t = 0 then false
    else if pos.first_half_sold then false
    else decide (t ≤ currentPrice)

/-- `Position.is_breakeven_hit(current_price)` (src/scripts/portfolio.py
lines 832-844): `if not self.breakeven: return False;
return current_price >= self.breakeven`. -/
def isBreakevenHit (pos : Position) (currentPrice : ℚ) : Bool :=
  match pos.breakeven with
  | none => false
  | some b => if b = 0 then false else decide (b ≤ currentPrice)

end Money

/-- C2: the stop-loss exit the claim describes does not exist in
`RiskManager.validate_signals`.  On a portfolio holding 100 shares of "AAA"
with stop_loss 95 and current price 90 (the stop is hit per
`Position.is_stop_loss_hit`), a HOLD signal produces no order at all and a
SELL signal produces a full-position SELL with reason STRATEGY_SIGNAL —
never a STOP_LOSS order. -/
theorem C2_no_stop_loss_exit :
    Money.isStopLossHit
      ⟨"AAA", 100, 100, 90, some 95, some 110, some 100, some 2, false⟩ 90 = true ∧
    Money.validateSignals
        ⟨1000, 10000,
          [("AAA", ⟨"AAA", 100, 100, 90, some 95, some 110, some 100, some 2, false⟩)],
          1/50, 5⟩
        [⟨"AAA", .hold, 90, 2⟩] = [] ∧
    Money.validateSignals
        ⟨1000, 10000,
          [("AAA", ⟨"AAA", 100, 100, 90, some 95, some 110, some 100, some 2, false⟩)],
          1/50, 5⟩
        [⟨"AAA", .sell, 90, 2⟩] =
      [⟨.sell, "AAA", 100, 90, "STRATEGY_SIGNAL", none⟩] ∧
    "STRATEGY_SIGNAL" ≠ "STOP_LOSS" := by
  refine ⟨?_, ?_, ?_, by decide⟩
  · norm_num [Money.isStopLossHit]
  · simp [Money.validateSignals, Money.validateBuySignalsBatch]
  · simp [Money.validateSignals, Money.validateSellSignal, Money.validateBuySignalsBatch,
      Money.lookupPos, List.find?]

/-- C3: `_calculate_position_size` divides `max_risk_pct` by 100 although the
configured `DEFAULT_RISK_PCT_PER_TRADE = 0.02` is already a fraction (its
sibling `DEFAULT_CASH_BUFFER = 0.10` means 10%), so at total_value 100000,
risk_pct 0.02, atr 2 and atr_multiplier 2 the code computes risk_amount 20
and 5 shares instead of the specified risk_amount 2000 and 500 shares. -/
theorem C3_risk_amount_divided_by_100 :
    (∃ tg, Money.calculatePositionSize ⟨10000, 100000, [], 1/50, 5⟩ 50 2 =
      .valid 5 250 tg 20) ∧
    (5 : ℤ) ≠ 500 ∧ (20 : ℚ) ≠ 2000 := by
  refine ⟨⟨Money.calculate2for1Targets 50 2, ?_⟩, by decide, by norm_num⟩
  rw [Money.calculatePositionSize]
  norm_num
  have h5 : Money.pyInt (20 / (2 * Money.defaultAtrMultiplier)) = 5 := by
    norm_num [Money.pyInt, Money.defaultAtrMultiplier]
  rw [h5]
  norm_num [Money.defaultAtrMultiplier]

/-- C8 counterexample: a position with first_half_sold = true, breakeven 100
and current price 90 satisfies the claim's firing condition price ≤
breakeven, yet `Position.is_breakeven_hit` returns false (the code tests
`current_price >= breakeven`). -/
theorem C8_counterexample :
    (⟨"AAA", 50, 100, 90, some 100, some 116, some 100, some 4, true⟩ :
        Money.Position).first_half_sold = true ∧
    ((90 : ℚ) ≤ 100) ∧
    Money.isBreakevenHit
      ⟨"AAA", 50, 100, 90, some 100, some 116, some 100, some 4, true⟩ 90 = false := by
  refine ⟨rfl, by norm_num, ?_⟩
  norm_num [Money.isBreakevenHit]

/-- C8 amended: `is_breakeven_hit` fires exactly when a breakeven level is
set and truthy (non-None, non-zero) and the current price is at or ABOVE it
(`current_price >= breakeven`), and it is entirely independent of
`first_half_sold`.  No caller in the repository uses it to liquidate the
remaining shares. -/
theorem C8_amended (pos : Money.Position) (p : ℚ) :
    (Money.isBreakevenHit pos p = true ↔
      ∃ b, pos.breakeven = some b ∧ b ≠ 0 ∧ b ≤ p) ∧
    (∀ fh, Money.isBreakevenHit { pos with first_half_sold := fh } p =
      Money.isBreakevenHit pos p) := by
  constructor
  · cases hb : pos.breakeven with
    | none => simp [Money.isBreakevenHit, hb]
    | some b =>
      by_cases h0 : b = 0
      · simp [Money.isBreakevenHit, hb, h0]
      · simp [Money.isBreakevenHit, hb, h0]
  · intro fh
    rfl

/-! ## Performance metrics (src/scripts/backtest.py, calculate_portfolio_metrics) -/

namespace Money

/-- One row of `portfolio_history` as consumed by
`calculate_portfolio_metrics` (columns date, total_value). -/
structure Snapshot where
  date : ℤ
  totalValue : ℚ
  deriving DecidableEq, Repr

/-- The `total_return` entry of `calculate_portfolio_metrics`
(src/scripts/backtest.py lines 91-102):
`(final_value / initial_capital - 1) * 100`; `none` models the empty dict
returned when the history has fewer than two rows. -/
def totalReturnPct (history : List Snapshot) (initialCapital : ℚ) : Option ℚ :=
  if history.length < 2 then none
  else some (((history.getLast?.map Snapshot.totalValue).getD 0 / initialCapital - 1) * 100)

/-- The `annualized_return` entry of `calculate_portfolio_metrics`
(src/scripts/backtest.py lines 96, 104-106):
`((final_value / initial_capital) ** (1 / years) - 1) * 100` with
`years = days / 365.25` and `days = len(portfolio_history)` — the number of
recorded snapshots, not the calendar span.  Real-valued because of the
non-algebraic power. -/
noncomputable def annualizedReturnPct (history : List Snapshot)
    (initialCapital : ℚ) : Option ℝ :=
  if history.length < 2 then none
  else
    let finalValue : ℝ := (((history.getLast?.map Snapshot.totalValue).getD 0 : ℚ) : ℝ)
    let days : ℝ := (history.length : ℝ)
    let years := days / 365.25
    some (if 0 < years then
      ((finalValue / (initialCapital : ℝ)) ^ (1 / years) - 1) * 100 else 0)

end Money

/-- C9 amended: on a history of n ≥ 2 snapshots the reported total return is
`(V_last / initial_capital - 1) · 100` and the reported annualized return is
`((V_last / initial_capital) ^ (365.25 / n) - 1) · 100`, where n is the
NUMBER of recorded snapshots (one per executed week), not the calendar days
spanned, and the base is the backtest's initial capital, not the first
snapshot value. -/
theorem C9_amended (history : List Money.Snapshot) (initialCapital : ℚ)
    (last : Money.Snapshot) (h2 : 2 ≤ history.length)
    (hlast : history.getLast? = some last) :
    Money.totalReturnPct history initialCapital =
      some ((last.totalValue / initialCapital - 1) * 100) ∧
    Money.annualizedReturnPct history initialCapital =
      some ((((last.totalValue : ℝ) / (initialCapital : ℝ)) ^
        ((365.25 : ℝ) / (history.length : ℝ)) - 1) * 100) := by
  have hguard : ¬ history.length < 2 := by omega
  constructor
  · simp [Money.totalReturnPct, hguard, hlast]
  · have hlen : (0 : ℝ) < (history.length : ℝ) := by
      have : 0 < history.length := by omega
      exact_mod_cast this
    have hpos : (0 : ℝ) < (history.length : ℝ) / 365.25 := by
      apply div_pos hlen
      norm_num
    simp only [Money.annualizedReturnPct, hguard, if_false, hlast, Option.map_some,
      Option.getD_some]
    rw [if_pos hpos]
    rw [one_div_div]
    simp

/-- Witness for C9 amended: two snapshots 100 → 200 with initial capital
100 give total return 100% and annualized return (2^(365.25/2) − 1)·100. -/
theorem C9_amended_witness :
    Money.totalReturnPct [⟨0, 100⟩, ⟨7, 200⟩] 100 = some 100 ∧
    Money.annualizedReturnPct [⟨0, 100⟩, ⟨7, 200⟩] 100 =
      some (((2 : ℝ) ^ ((365.25 : ℝ) / 2) - 1) * 100) := by
  have h := C9_amended [⟨0, 100⟩, ⟨7, 200⟩] 100 ⟨7, 200⟩ (by norm_num) rfl
  constructor
  · rw [h.1]
    norm_num
  · rw [h.2]
    norm_num

/-- C9 counterexample: snapshots [(day 0, 200), (day 14, 400)] with initial
capital 100.  Reading the claim's V_0 as the first snapshot value and days
as the 14 calendar days spanned: the claimed total return is
(400/200 − 1)·100 = 100 but the code reports (400/100 − 1)·100 = 300, and
the claimed annualized return uses 4^(365.25/14) while the code computes
4^(365.25/2) because `days = len(portfolio_history)` is the snapshot count
2 and the base is the initial capital. -/
theorem C9_counterexample :
    (Money.totalReturnPct [⟨0, 200⟩, ⟨14, 400⟩] 100 = some 300 ∧
      (300 : ℚ) ≠ ((400 : ℚ) / 200 - 1) * 100) ∧
    Money.annualizedReturnPct [⟨0, 200⟩, ⟨14, 400⟩] 100 ≠
      some ((((400 : ℝ) / 200) ^ ((365.25 : ℝ) / 14) - 1) * 100) := by
  have h := C9_amended [⟨0, 200⟩, ⟨14, 400⟩] 100 ⟨14, 400⟩ (by norm_num) rfl
  refine ⟨⟨?_, by norm_num⟩, ?_⟩
  · rw [h.1]
    norm_num
  · rw [h.2]
    have hv : (((400 : ℚ) : ℝ) / ((100 : ℚ) : ℝ)) = (4 : ℝ) := by norm_num
    have hlen : ((([⟨0, 200⟩, ⟨14, 400⟩] : List Money.Snapshot).length : ℕ) : ℝ) = 2 := by
      norm_num
    have hne : (4 : ℝ) ^ ((365.25 : ℝ) / 2) ≠ ((400 : ℝ) / 200) ^ ((365.25 : ℝ) / 14) := by
      have h42 : ((400 : ℝ) / 200) = 2 := by norm_num
      rw [h42]
      have h4 : (4 : ℝ) = (2 : ℝ) ^ (2 : ℝ) := by
        rw [show ((2 : ℝ) : ℝ) ^ (2 : ℝ) = (2 : ℝ) ^ ((2 : ℕ) : ℝ) by norm_num]
        rw [Real.rpow_natCast]
        norm_num
      rw [h4, ← Real.rpow_mul (by norm_num : (0 : ℝ) ≤ 2)]
      rw [show (2 : ℝ) * ((365.25 : ℝ) / 2) = (365.25 : ℝ) by ring]
      have hlt : (2 : ℝ) ^ ((365.25 : ℝ) / 14) < (2 : ℝ) ^ (365.25 : ℝ) := by
        apply Real.rpow_lt_rpow_left_iff (by norm_num : (1 : ℝ) < 2) |>.mpr
        norm_num
      exact (ne_of_gt hlt)
    intro hcontra
    apply hne
    have hs := Option.some.inj hcontra
    have heq : (((400 : ℚ) : ℝ) / ((100 : ℚ) : ℝ)) ^
        ((365.25 : ℝ) / (([⟨0, 200⟩, ⟨14, 400⟩] : List Money.Snapshot).length : ℝ)) =
        ((400 : ℝ) / 200) ^ ((365.25 : ℝ) / 14) := by
      linarith [hs]
    rw [hv, hlen] at heq
    exact heq
